import Mathlib

/-!
Verification of the CCI command-line module (`SoftLayer/CLI/cci.py`).

The module translates parsed command-line arguments into request payloads
for a remote API client and projects catalog/instance responses into
name/value table rows.  Python strings are embedded as Lean `String`
(a list of characters, matching the byte-wise comparison of the source's
ASCII data), Python `int` as `Int`, raised exceptions as `Except` errors,
and each remote call as a constructor of a call datatype recording the
method chosen and the payload sent.
-/

/-! ## Python primitives used by the module -/

/-- Whitespace accepted by Python `int()` around a numeric literal. -/
def pyIsSpace (c : Char) : Bool := c.toNat = 32 || (9 ≤ c.toNat && c.toNat ≤ 13)

/-- ASCII decimal digit. -/
def pyIsDigit (c : Char) : Bool := 48 ≤ c.toNat && c.toNat ≤ 57

/-- ASCII letter. -/
def pyIsLetter (c : Char) : Bool :=
  (65 ≤ c.toNat && c.toNat ≤ 90) || (97 ≤ c.toNat && c.toNat ≤ 122)

/-- Value of a digit string, most significant first. -/
def digitsVal (cs : List Char) : Nat := cs.foldl (fun a c => a * 10 + (c.toNat - 48)) 0

/-- Strip leading and trailing whitespace, as Python `int()` does. -/
def pyStrip (cs : List Char) : List Char :=
  ((cs.dropWhile pyIsSpace).reverse.dropWhile pyIsSpace).reverse

/-- Python `int()` on a stripped character sequence: an optional single
sign followed by one or more decimal digits; anything else raises
`ValueError` (here: `none`). -/
def pyIntCore (cs : List Char) : Option Int :=
  match cs with
  | [] => none
  | c :: rest =>
    if c = '+' then
      if rest ≠ [] ∧ rest.all pyIsDigit then some (Int.ofNat (digitsVal rest)) else none
    else if c = '-' then
      if rest ≠ [] ∧ rest.all pyIsDigit then some (-(Int.ofNat (digitsVal rest))) else none
    else if (c :: rest).all pyIsDigit then some (Int.ofNat (digitsVal (c :: rest))) else none

/-- Python `int(s)` for a string argument. -/
def pyInt (s : String) : Option Int := pyIntCore (pyStrip s.data)

/-- Python `len(s)`. -/
def pyLen (s : String) : Nat := s.data.length

/-- Python `s.find(c)`: index of the first occurrence, `-1` when absent. -/
def pyFind (s : String) (c : Char) : Int :=
  match List.findIdx? (fun x => x = c) s.data with
  | some i => Int.ofNat i
  | none => -1

/-- Python slice `s[0:stop]`, with the negative-index convention. -/
def pySlice0 (s : String) (stop : Int) : String :=
  ⟨s.data.take (if stop < 0 then s.data.length - stop.natAbs else stop.toNat)⟩

/-- Python string equality. -/
def pyStrEq (a b : String) : Bool := a.data = b.data

/-! ## Error model

Exceptions that can escape the embedded code.  The spec's error taxonomy
names the `ValueError` escaping the memory parse `InvalidMemorySpec`. -/

inductive CliError where
  | invalidMemorySpec : CliError
  | indexError : CliError
  | attributeError : String → CliError
  | nameError : String → CliError
deriving DecidableEq

instance exceptDecEq {ε α : Type} [DecidableEq ε] [DecidableEq α] :
    DecidableEq (Except ε α) := fun a b =>
  match a, b with
  | Except.error e, Except.error f =>
    if h : e = f then isTrue (congrArg Except.error h)
    else isFalse (fun hh => h (Except.error.inj hh))
  | Except.error _, Except.ok _ => isFalse (fun hh => Except.noConfusion hh)
  | Except.ok _, Except.error _ => isFalse (fun hh => Except.noConfusion hh)
  | Except.ok x, Except.ok y =>
    if h : x = y then isTrue (congrArg Except.ok h)
    else isFalse (fun hh => h (Except.ok.inj hh))

/-! ## CreateCCI.execute: memory normalization (cci.py lines 365-377) -/

/-- The memory-argument normalization block of `CreateCCI.execute`:

    try:
        memory = int(args.memory)
        if memory < 1024:
            memory = memory * 1024
    except ValueError:
        unit = args.memory[-1]
        memory = int(args.memory[0:-1])
        if unit in ['G', 'g']:
            memory = memory * 1024
        if unit in ['T', 'r']:
            memory = memory * 1024 * 1024

`args.memory[-1]` on an empty string raises `IndexError`; the inner
`int` call has no handler, so its `ValueError` escapes (the spec's
`InvalidMemorySpec`). -/
def normalizeMemory (s : String) : Except CliError Int :=
  match pyInt s with
  | some m => Except.ok (if m < 1024 then m * 1024 else m)
  | none =>
    match s.data.getLast? with
    | none => Except.error CliError.indexError
    | some u =>
      match pyInt (pySlice0 s (-1)) with
      | none => Except.error CliError.invalidMemorySpec
      | some m =>
        let m1 := if u = 'G' ∨ u = 'g' then m * 1024 else m
        let m2 := if u = 'T' ∨ u = 'r' then m1 * 1024 * 1024 else m1
        Except.ok m2

/-! ## CreateOptionsCCI.execute: os and nic categories (cci.py lines 203-217, 249-257) -/

/-- Python 2 string ordering: byte-wise (here: character-wise) lexicographic. -/
def pyStrLe (a b : String) : Prop := a.data ≤ b.data

instance pyStrLeDec : DecidableRel pyStrLe := fun a b =>
  inferInstanceAs (Decidable (a.data ≤ b.data))

instance pyStrLeTotal : IsTotal String pyStrLe := ⟨fun a b => le_total a.data b.data⟩

instance pyStrLeTrans : IsTrans String pyStrLe := ⟨fun _ _ _ h1 h2 => le_trans h1 h2⟩

/-- Python `sorted` on a list of strings. -/
def pySorted (l : List String) : List String := List.insertionSort pyStrLe l

/-- Group key of an OS reference code: `o[0:o.find('_')]`.  With no
underscore `find` yields `-1` and the slice drops the final character. -/
def osKey (o : String) : String := pySlice0 o (pyFind o '_')

/-- Value of the os row for summary key `s`:
`"\n".join(sorted(filter(lambda x: x[0:len(s)] == s, os)))`. -/
def osRowValue (os : List String) (s : String) : String :=
  String.intercalate "\n" (pySorted (os.filter
    (fun x => pyStrEq (pySlice0 x (pyLen s : Int)) s)))

/-- The os rows of `CreateOptionsCCI.execute`: codes are sorted, the set of
group keys is collected and iterated in sorted order, and one row is
emitted per key. -/
def osRows (codes : List String) : List (String × String) :=
  let os := pySorted codes
  (pySorted ((os.map osKey).dedup)).map (fun s => ("os (" ++ s ++ ")", osRowValue os s))

/-- Boolean test that `pre` starts the sequence `x`. -/
def strStartsWith : List Char → List Char → Bool
  | [], _ => true
  | _ :: _, [] => false
  | a :: as, b :: bs => decide (a = b) && strStartsWith as bs

/-- Row value as the amended claim words it: all codes of which the key is
a prefix, newline-joined in sorted order. -/
def osRowValueStartsSpec (os : List String) (s : String) : String :=
  String.intercalate "\n" (pySorted (os.filter (fun x => strStartsWith s.data x.data)))

/-- Os rows as the amended claim words them: one row per distinct group
key in sorted order, membership by prefix match with the key. -/
def osRowsStartsSpec (codes : List String) : List (String × String) :=
  let os := pySorted codes
  (pySorted ((os.map osKey).dedup)).map
    (fun s => ("os (" ++ s ++ ")", osRowValueStartsSpec os s))

/-- Row value as the original claim words it: exactly the codes whose own
group key equals the row's key. -/
def osRowValueKeySpec (os : List String) (s : String) : String :=
  String.intercalate "\n" (pySorted (os.filter (fun x => pyStrEq (osKey x) s)))

/-- Os rows as the original claim words them: grouped by the substring
preceding the first underscore. -/
def osRowsKeySpec (codes : List String) : List (String × String) :=
  let os := pySorted codes
  (pySorted ((os.map osKey).dedup)).map
    (fun s => ("os (" ++ s ++ ")", osRowValueKeySpec os s))

/-- Max-speed values of the nic category, stringified and sorted as
strings (`speeds.append(str(speed)); speeds = sorted(speeds)`). -/
def nicSorted (speeds : List Int) : List String :=
  pySorted (speeds.map (fun x => toString x))

/-- The nic row: `t.add_row(['nic', ','.join(speeds)])`. -/
def nicRow (speeds : List Int) : String × String :=
  ("nic", String.intercalate "," (nicSorted speeds))

/-- The nic row as it would read under an ascending numeric sort. -/
def nicRowNumericSpec (speeds : List Int) : String × String :=
  ("nic", String.intercalate ","
    ((List.insertionSort (fun a b : Int => a ≤ b) speeds).map (fun x => toString x)))

/-! ## CreateCCI.execute: request payload and call choice (cci.py lines 352-405) -/

/-- Parsed arguments of the `create` subcommand.  `userfileContents` holds
the text `args.userfile.read()` would return when `--userfile` was given;
file objects are always truthy in Python. -/
structure CreateArgs where
  hostname : String
  domain : String
  cpu : Int
  memory : String
  os : Option String
  image : Option String
  hourly : Bool
  monthly : Bool
  datacenter : String
  privateFlag : Bool
  userdata : Option String
  userfileContents : Option String
  test : Bool
  really : Bool
deriving DecidableEq

/-- Python truthiness of an optional string: absent and empty are falsy. -/
def strTruthy : Option String → Bool
  | none => false
  | some s => !s.data.isEmpty

/-- The request payload dict built by `CreateCCI.execute`; `none` models an
absent key. -/
structure CreateRequest where
  hourly : Bool
  cpus : Int
  domain : String
  hostname : String
  privateFlag : Bool
  local_disk : Bool
  memory : Int
  os_code : Option String
  image_id : Option String
  datacenter : Option String
  userdata : Option String
deriving DecidableEq

/-- Payload construction of `CreateCCI.execute`: the `data` dict literal,
the memory normalization, the monthly override of `hourly`, and the
conditionally added keys. -/
def buildCreateRequest (args : CreateArgs) : Except CliError CreateRequest :=
  match normalizeMemory args.memory with
  | Except.error e => Except.error e
  | Except.ok mem =>
    Except.ok {
      hourly := if args.monthly then false else args.hourly
      cpus := args.cpu
      domain := args.domain
      hostname := args.hostname
      privateFlag := args.privateFlag
      local_disk := true
      memory := mem
      os_code := if strTruthy args.os then args.os else none
      image_id := if strTruthy args.image then args.image else none
      datacenter := if args.datacenter.data.isEmpty then none else some args.datacenter
      userdata := if strTruthy args.userdata then args.userdata else args.userfileContents
    }

/-- The remote call a `create` invocation performs, with its payload. -/
inductive CreateCall where
  | verify : CreateRequest → CreateCall
  | create : CreateRequest → CreateCall
deriving DecidableEq

/-- Call selection of `CreateCCI.execute`: `--test` sends the payload to
`verify_create_instance`, otherwise (given `--really` or an interactive
confirmation) to `create_instance`.  With neither, Python would hit
`return result` with `result` unbound (`NameError`). -/
def createExecute (args : CreateArgs) (confirmed : Bool) : Except CliError CreateCall :=
  match buildCreateRequest args with
  | Except.error e => Except.error e
  | Except.ok data =>
    if args.test then Except.ok (CreateCall.verify data)
    else if args.really || confirmed then Except.ok (CreateCall.create data)
    else Except.error (CliError.nameError "result")

/-! ## CCIDetails.execute: instance lookup (cci.py lines 70-119) -/

/-- Parsed arguments of the `detail` subcommand: the three mutually
exclusive selectors plus the display flags. -/
structure DetailArgs where
  id : Option String
  name : Option String
  publicIp : Option String
  passwords : Bool
  price : Bool
deriving DecidableEq

/-- The lookup call `detail` performs. -/
inductive DetailCall where
  | getInstance : Option String → DetailCall
deriving DecidableEq

/-- The lookup made by `CCIDetails.execute`: `result = cci.get_instance(args.id)`. -/
def detailLookupCall (args : DetailArgs) : DetailCall := DetailCall.getInstance args.id

/-! ## ManageCCI: action dispatch (cci.py lines 427-525) -/

/-- The `manage` subcommand's sub-actions. -/
inductive ManageAction where
  | poweroff | reboot | poweron | pause | resume
deriving DecidableEq

/-- The argparse namespace seen by the `manage` handlers.  `soft` and
`cycle` are `none` when the chosen sub-action's parser never declared the
flag; reading them then raises `AttributeError`. -/
structure ManageArgs where
  instanceId : String
  soft : Option Bool
  cycle : Option Bool
deriving DecidableEq

/-- A call on the `Virtual_Guest` service carrying the instance id. -/
inductive VgCall where
  | powerOffSoft : String → VgCall
  | powerCycle : String → VgCall
  | powerOff : String → VgCall
  | rebootHard : String → VgCall
  | rebootSoft : String → VgCall
  | rebootDefault : String → VgCall
  | powerOn : String → VgCall
  | pause : String → VgCall
  | resume : String → VgCall
deriving DecidableEq

/-- Attribute access on the namespace: `AttributeError` when absent. -/
def getArgAttr (o : Option Bool) (name : String) : Except CliError Bool :=
  match o with
  | some b => Except.ok b
  | none => Except.error (CliError.attributeError name)

/-- `ManageCCI.exec_shutdown`: `--soft` chooses `powerOffSoft`, then
`args.cycle` is consulted for `powerCycle`, else `powerOff`. -/
def exec_shutdown (args : ManageArgs) : Except CliError VgCall :=
  match getArgAttr args.soft "soft" with
  | Except.error e => Except.error e
  | Except.ok soft =>
    if soft then Except.ok (VgCall.powerOffSoft args.instanceId)
    else
      match getArgAttr args.cycle "cycle" with
      | Except.error e => Except.error e
      | Except.ok cycle =>
        if cycle then Except.ok (VgCall.powerCycle args.instanceId)
        else Except.ok (VgCall.powerOff args.instanceId)

/-- `ManageCCI.exec_reboot`: `--cycle` chooses `rebootHard`, `--soft`
chooses `rebootSoft`, else `rebootDefault`. -/
def exec_reboot (args : ManageArgs) : Except CliError VgCall :=
  match getArgAttr args.cycle "cycle" with
  | Except.error e => Except.error e
  | Except.ok cycle =>
    if cycle then Except.ok (VgCall.rebootHard args.instanceId)
    else
      match getArgAttr args.soft "soft" with
      | Except.error e => Except.error e
      | Except.ok soft =>
        if soft then Except.ok (VgCall.rebootSoft args.instanceId)
        else Except.ok (VgCall.rebootDefault args.instanceId)

/-- The namespace each sub-action's parser produces
(`ManageCCI.add_additional_args`): only `poweroff` declares `--soft`,
only `reboot` declares both `--cycle` and `--soft`. -/
def parseManageArgs : ManageAction → Bool → Bool → String → ManageArgs
  | ManageAction.poweroff, softFlag, _, id =>
    { instanceId := id, soft := some softFlag, cycle := none }
  | ManageAction.reboot, softFlag, cycleFlag, id =>
    { instanceId := id, soft := some softFlag, cycle := some cycleFlag }
  | _, _, _, id => { instanceId := id, soft := none, cycle := none }

/-- `ManageCCI.execute`: dispatch to the handler the chosen sub-action's
parser registered via `set_defaults(func=...)`. -/
def manageExecute (action : ManageAction) (softFlag cycleFlag : Bool)
    (id : String) : Except CliError VgCall :=
  let args := parseManageArgs action softFlag cycleFlag id
  match action with
  | ManageAction.poweroff => exec_shutdown args
  | ManageAction.reboot => exec_reboot args
  | ManageAction.poweron => Except.ok (VgCall.powerOn args.instanceId)
  | ManageAction.pause => Except.ok (VgCall.pause args.instanceId)
  | ManageAction.resume => Except.ok (VgCall.resume args.instanceId)

/-! ## Lemmas about the Python primitives -/

lemma pyIsDigit_not_space {c : Char} (h : pyIsDigit c = true) : pyIsSpace c = false := by
  simp only [pyIsDigit, Bool.and_eq_true, decide_eq_true_eq] at h
  rw [Bool.eq_false_iff]
  intro hs
  simp only [pyIsSpace, Bool.or_eq_true, Bool.and_eq_true, decide_eq_true_eq] at hs
  omega

lemma pyIsLetter_not_digit {c : Char} (h : pyIsLetter c = true) : pyIsDigit c = false := by
  simp only [pyIsLetter, Bool.or_eq_true, Bool.and_eq_true, decide_eq_true_eq] at h
  rw [Bool.eq_false_iff]
  intro hd
  simp only [pyIsDigit, Bool.and_eq_true, decide_eq_true_eq] at hd
  omega

lemma pyIsLetter_not_space {c : Char} (h : pyIsLetter c = true) : pyIsSpace c = false := by
  simp only [pyIsLetter, Bool.or_eq_true, Bool.and_eq_true, decide_eq_true_eq] at h
  rw [Bool.eq_false_iff]
  intro hs
  simp only [pyIsSpace, Bool.or_eq_true, Bool.and_eq_true, decide_eq_true_eq] at hs
  omega

lemma pyIsDigit_ne_sign {c : Char} (h : pyIsDigit c = true) : c ≠ '+' ∧ c ≠ '-' := by
  constructor <;> intro hc <;> subst hc <;> exact absurd h (by decide)

lemma dropWhile_eq_self_of_all {p : Char → Bool} {l : List Char}
    (h : ∀ x ∈ l, p x = false) : l.dropWhile p = l := by
  cases l with
  | nil => rfl
  | cons a t => simp [List.dropWhile_cons, h a (List.mem_cons_self a t)]

lemma mem_of_getLast?_some : ∀ (l : List Char) (a : Char), l.getLast? = some a → a ∈ l
  | [], _, h => by simp at h
  | [x], a, h => by
    simp only [List.getLast?_singleton, Option.some.injEq] at h
    simp [h]
  | x :: y :: ys, a, h => by
    rw [List.getLast?_cons_cons] at h
    exact List.mem_cons_of_mem x (mem_of_getLast?_some (y :: ys) a h)

lemma getLast?_dropWhile {p : Char → Bool} :
    ∀ {l : List Char} {u : Char}, l.getLast? = some u → p u = false →
      (l.dropWhile p).getLast? = some u
  | [], u, h, _ => by simp at h
  | a :: t, u, h, hu => by
    by_cases ha : p a = true
    · rw [List.dropWhile_cons, if_pos ha]
      cases t with
      | nil =>
        simp only [List.getLast?_singleton, Option.some.injEq] at h
        rw [h] at ha
        rw [ha] at hu
        cases hu
      | cons b t2 =>
        rw [List.getLast?_cons_cons] at h
        exact getLast?_dropWhile h hu
    · rw [List.dropWhile_cons, if_neg ha]
      exact h

lemma pyStrip_eq_self {cs : List Char} (h : ∀ x ∈ cs, pyIsSpace x = false) :
    pyStrip cs = cs := by
  unfold pyStrip
  rw [dropWhile_eq_self_of_all h]
  rw [dropWhile_eq_self_of_all (fun x hx => h x (List.mem_reverse.mp hx))]
  exact List.reverse_reverse cs

lemma pyStrip_getLast {cs : List Char} {u : Char} (h : cs.getLast? = some u)
    (hu : pyIsSpace u = false) : (pyStrip cs).getLast? = some u := by
  unfold pyStrip
  have h1 : (cs.dropWhile pyIsSpace).getLast? = some u := getLast?_dropWhile h hu
  have h2 : (cs.dropWhile pyIsSpace).reverse.head? = some u := by
    rw [List.head?_reverse]; exact h1
  cases hr : (cs.dropWhile pyIsSpace).reverse with
  | nil => rw [hr] at h2; simp at h2
  | cons y t =>
    rw [hr] at h2
    have hy : y = u := by simpa using h2
    subst hy
    rw [List.dropWhile_cons, if_neg (by simp [hu])]
    rw [List.getLast?_reverse]
    rfl

lemma pyIntCore_none_of_last {l : List Char} {u : Char} (h : l.getLast? = some u)
    (hu : pyIsDigit u = false) : pyIntCore l = none := by
  cases l with
  | nil => rfl
  | cons c rest =>
    have hmem : u ∈ c :: rest := mem_of_getLast?_some _ _ h
    have hall : (c :: rest).all pyIsDigit = false := by
      rw [Bool.eq_false_iff]
      intro hA
      rw [List.all_eq_true] at hA
      rw [hA u hmem] at hu
      cases hu
    have hrest : rest ≠ [] → rest.all pyIsDigit = false := by
      intro hne
      cases rest with
      | nil => exact absurd rfl hne
      | cons r rs =>
        have hg2 : (r :: rs).getLast? = some u := by
          rw [← List.getLast?_cons_cons]
          exact h
        have hm2 : u ∈ r :: rs := mem_of_getLast?_some _ _ hg2
        rw [Bool.eq_false_iff]
        intro hA
        rw [List.all_eq_true] at hA
        rw [hA u hm2] at hu
        cases hu
    simp only [pyIntCore]
    by_cases hplus : c = '+'
    · rw [if_pos hplus, if_neg]
      rintro ⟨hne, hAll⟩
      rw [hrest hne] at hAll
      cases hAll
    · rw [if_neg hplus]
      by_cases hminus : c = '-'
      · rw [if_pos hminus, if_neg]
        rintro ⟨hne, hAll⟩
        rw [hrest hne] at hAll
        cases hAll
      · rw [if_neg hminus, if_neg]
        intro hAll
        rw [hall] at hAll
        cases hAll

lemma pyInt_none_of_last {cs : List Char} {u : Char} (h : cs.getLast? = some u)
    (hd : pyIsDigit u = false) (hs : pyIsSpace u = false) :
    pyInt ⟨cs⟩ = none := by
  show pyIntCore (pyStrip cs) = none
  exact pyIntCore_none_of_last (pyStrip_getLast h hs) hd

lemma pyInt_digits {ds : List Char} (hne : ds ≠ []) (hd : ds.all pyIsDigit = true) :
    pyInt ⟨ds⟩ = some (Int.ofNat (digitsVal ds)) := by
  have hnospace : ∀ x ∈ ds, pyIsSpace x = false := fun x hx =>
    pyIsDigit_not_space (List.all_eq_true.mp hd x hx)
  show pyIntCore (pyStrip ds) = _
  rw [pyStrip_eq_self hnospace]
  cases ds with
  | nil => exact absurd rfl hne
  | cons c rest =>
    have hc : pyIsDigit c = true := List.all_eq_true.mp hd c (List.mem_cons_self c rest)
    have hsign := pyIsDigit_ne_sign hc
    simp only [pyIntCore]
    rw [if_neg hsign.1, if_neg hsign.2, if_pos hd]

lemma pySlice0_neg_one (s : String) : pySlice0 s (-1) = ⟨s.data.dropLast⟩ := by
  unfold pySlice0
  rw [if_pos (by decide : (-1 : Int) < 0)]
  rw [show ((-1 : Int)).natAbs = 1 from rfl]
  rw [← List.dropLast_eq_take]

lemma pySlice0_ofNat (s : String) (n : Nat) : pySlice0 s (n : Int) = ⟨s.data.take n⟩ := by
  unfold pySlice0
  rw [if_neg (by omega : ¬((n : Int) < 0))]
  rw [Int.toNat_ofNat]

lemma normalizeMemory_of_suffix {s : String} {u : Char} {n : Int}
    (h0 : pyInt s = none) (h1 : s.data.getLast? = some u)
    (h2 : pyInt (pySlice0 s (-1)) = some n) :
    normalizeMemory s = Except.ok
      (if u = 'T' ∨ u = 'r' then (if u = 'G' ∨ u = 'g' then n * 1024 else n) * 1024 * 1024
       else (if u = 'G' ∨ u = 'g' then n * 1024 else n)) := by
  unfold normalizeMemory
  rw [h0, h1, h2]

lemma take_eq_strStartsWith : ∀ (l x : List Char),
    decide (x.take l.length = l) = strStartsWith l x
  | [], x => by simp [strStartsWith]
  | a :: as, [] => by simp [strStartsWith]
  | a :: as, b :: bs => by
    rw [List.length_cons, List.take_succ_cons]
    have h1 : (b :: bs.take as.length = a :: as) ↔ (a = b ∧ bs.take as.length = as) := by
      constructor
      · intro h
        injection h with hb ht
        exact ⟨hb.symm, ht⟩
      · rintro ⟨hb, ht⟩
        rw [hb, ht]
    calc decide (b :: bs.take as.length = a :: as)
        = decide (a = b ∧ bs.take as.length = as) := decide_eq_decide.mpr h1
      _ = (decide (a = b) && decide (bs.take as.length = as)) := Bool.decide_and _ _
      _ = (decide (a = b) && strStartsWith as bs) := by rw [take_eq_strStartsWith as bs]
      _ = strStartsWith (a :: as) (b :: bs) := rfl

lemma osRowValue_eq_starts (os : List String) (s : String) :
    osRowValue os s = osRowValueStartsSpec os s := by
  unfold osRowValue osRowValueStartsSpec
  congr 1
  congr 1
  apply List.filter_congr
  intro x _
  show pyStrEq (pySlice0 x (pyLen s : Int)) s = strStartsWith s.data x.data
  rw [show pyLen s = s.data.length from rfl]
  rw [pySlice0_ofNat]
  show decide (x.data.take s.data.length = s.data) = strStartsWith s.data x.data
  exact take_eq_strStartsWith s.data x.data

lemma osRows_eq_startsSpec (codes : List String) : osRows codes = osRowsStartsSpec codes := by
  unfold osRows osRowsStartsSpec
  simp only [osRowValue_eq_starts]

lemma normalizeMemory_append_unit {s : String} {n : Int} {c : Char}
    (h : pyInt s = some n) (hd : pyIsDigit c = false) (hsp : pyIsSpace c = false) :
    normalizeMemory ⟨s.data ++ [c]⟩ =
      Except.ok (if c = 'T' ∨ c = 'r'
        then (if c = 'G' ∨ c = 'g' then n * 1024 else n) * 1024 * 1024
        else (if c = 'G' ∨ c = 'g' then n * 1024 else n)) := by
  have hne : pyInt ⟨s.data ++ [c]⟩ = none :=
    pyInt_none_of_last (List.getLast?_concat s.data) hd hsp
  have hlast : (String.mk (s.data ++ [c])).data.getLast? = some c :=
    List.getLast?_concat s.data
  have hsl : pyInt (pySlice0 ⟨s.data ++ [c]⟩ (-1)) = some n := by
    rw [pySlice0_neg_one]
    show pyInt ⟨(s.data ++ [c]).dropLast⟩ = some n
    rw [List.dropLast_concat]
    exact h
  exact normalizeMemory_of_suffix hne hlast hsl

lemma buildCreateRequest_ok {args : CreateArgs} {p : CreateRequest}
    (hb : buildCreateRequest args = Except.ok p) :
    ∃ v, normalizeMemory args.memory = Except.ok v ∧
      p = { hourly := if args.monthly then false else args.hourly
            cpus := args.cpu
            domain := args.domain
            hostname := args.hostname
            privateFlag := args.privateFlag
            local_disk := true
            memory := v
            os_code := if strTruthy args.os then args.os else none
            image_id := if strTruthy args.image then args.image else none
            datacenter := if args.datacenter.data.isEmpty then none
                          else some args.datacenter
            userdata := if strTruthy args.userdata then args.userdata
                        else args.userfileContents } := by
  unfold buildCreateRequest at hb
  split at hb
  · exact absurd hb (by simp)
  · rename_i v hv
    exact ⟨v, hv, (Except.ok.inj hb).symm⟩

lemma createExecute_verify {args : CreateArgs} {c : Bool} {p : CreateRequest}
    (h : createExecute args c = Except.ok (CreateCall.verify p)) :
    buildCreateRequest args = Except.ok p := by
  unfold createExecute at h
  split at h
  · exact absurd h (by simp)
  · rename_i d hd
    by_cases ht : args.test = true
    · rw [if_pos ht] at h
      have h2 : d = p := CreateCall.verify.inj (Except.ok.inj h)
      rw [← h2]
      exact hd
    · rw [if_neg ht] at h
      split at h
      · exact absurd (Except.ok.inj h) (by simp)
      · exact absurd h (by simp)

lemma createExecute_create {args : CreateArgs} {c : Bool} {q : CreateRequest}
    (h : createExecute args c = Except.ok (CreateCall.create q)) :
    buildCreateRequest args = Except.ok q := by
  unfold createExecute at h
  split at h
  · exact absurd h (by simp)
  · rename_i d hd
    by_cases ht : args.test = true
    · rw [if_pos ht] at h
      exact absurd (Except.ok.inj h) (by simp)
    · rw [if_neg ht] at h
      split at h
      · have h2 : d = q := CreateCall.create.inj (Except.ok.inj h)
        rw [← h2]
        exact hd
      · exact absurd h (by simp)

/-! ## Concrete inputs shared by the create witnesses -/

/-- A valid `create` invocation with `--memory 2G --really`. -/
def argsA : CreateArgs :=
  ⟨"server1", "example.com", 2, "2G", some "UBUNTU_LATEST", none, true, false, "",
    false, none, none, false, true⟩

/-- The payload `argsA` produces. -/
def payloadA : CreateRequest :=
  ⟨true, 2, "example.com", "server1", false, true, 2048, some "UBUNTU_LATEST",
    none, none, none⟩

/-! ## The claims -/

/-- C1: For the create command's memory normalizer: "2" normalizes to 2048,
"2048" to 2048, "4G" to 4096, "1T" to 1048576; in general a bare integer
below 1024 is multiplied by 1024, a bare integer of at least 1024 is kept
unchanged, a G/g suffix multiplies the numeric prefix by 1024, and a T/r
suffix multiplies it by 1024*1024. -/
theorem create_memory_normalizer_cases :
    normalizeMemory "2" = Except.ok 2048 ∧
    normalizeMemory "2048" = Except.ok 2048 ∧
    normalizeMemory "4G" = Except.ok 4096 ∧
    normalizeMemory "1T" = Except.ok 1048576 ∧
    (∀ (s : String) (n : Int), pyInt s = some n → n < 1024 →
      normalizeMemory s = Except.ok (n * 1024)) ∧
    (∀ (s : String) (n : Int), pyInt s = some n → 1024 ≤ n →
      normalizeMemory s = Except.ok n) ∧
    (∀ (s : String) (n : Int) (c : Char), pyInt s = some n → (c = 'G' ∨ c = 'g') →
      normalizeMemory ⟨s.data ++ [c]⟩ = Except.ok (n * 1024)) ∧
    (∀ (s : String) (n : Int) (c : Char), pyInt s = some n → (c = 'T' ∨ c = 'r') →
      normalizeMemory ⟨s.data ++ [c]⟩ = Except.ok (n * 1024 * 1024)) := by
  refine ⟨by decide, by decide, by decide, by decide, ?_, ?_, ?_, ?_⟩
  · intro s n h hlt
    unfold normalizeMemory
    rw [h]
    show Except.ok (if n < 1024 then n * 1024 else n) = Except.ok (n * 1024)
    rw [if_pos hlt]
  · intro s n h hge
    unfold normalizeMemory
    rw [h]
    show Except.ok (if n < 1024 then n * 1024 else n) = Except.ok n
    rw [if_neg (by omega)]
  · intro s n c h hc
    rcases hc with rfl | rfl <;>
      rw [normalizeMemory_append_unit h (by decide) (by decide),
        if_neg (by decide), if_pos (by decide)]
  · intro s n c h hc
    rcases hc with rfl | rfl <;>
      rw [normalizeMemory_append_unit h (by decide) (by decide),
        if_pos (by decide), if_neg (by decide)]

/-- Witness for C1: each general clause of the theorem applied at a
concrete input. -/
theorem create_memory_normalizer_cases_inst :
    normalizeMemory "500" = Except.ok (500 * 1024) ∧
    normalizeMemory "4096" = Except.ok 4096 ∧
    normalizeMemory ⟨"3".data ++ ['g']⟩ = Except.ok (3 * 1024) ∧
    normalizeMemory ⟨"2".data ++ ['r']⟩ = Except.ok (2 * 1024 * 1024) :=
  ⟨create_memory_normalizer_cases.2.2.2.2.1 "500" 500 (by decide) (by decide),
   create_memory_normalizer_cases.2.2.2.2.2.1 "4096" 4096 (by decide) (by decide),
   create_memory_normalizer_cases.2.2.2.2.2.2.1 "3" 3 'g' (by decide) (Or.inr rfl),
   create_memory_normalizer_cases.2.2.2.2.2.2.2 "2" 2 'r' (by decide) (Or.inr rfl)⟩

/-- C2: The request payload built from the CLI arguments is identical
whether the invocation is a dry-run (`--test`, sent to
`verify_create_instance`) or a live order (sent to `create_instance`);
with `--memory 2G` both carry the normalized value 2048. -/
theorem create_dry_run_live_same_payload (args : CreateArgs) (c1 c2 : Bool)
    (p q : CreateRequest)
    (h1 : createExecute { args with test := true } c1 = Except.ok (CreateCall.verify p))
    (h2 : createExecute { args with test := false } c2 = Except.ok (CreateCall.create q)) :
    p = q ∧ (args.memory = "2G" → p.memory = 2048) := by
  have hb1t := createExecute_verify h1
  have hb2t := createExecute_create h2
  have hb1 : buildCreateRequest args = Except.ok p := hb1t
  have hb2 : buildCreateRequest args = Except.ok q := hb2t
  have hpq : p = q := Except.ok.inj (hb1.symm.trans hb2)
  refine ⟨hpq, ?_⟩
  intro hm
  obtain ⟨v, hv, hp⟩ := buildCreateRequest_ok hb1
  rw [hm] at hv
  have hv2048 : v = 2048 :=
    (Except.ok.inj ((by decide : normalizeMemory "2G" = Except.ok 2048).symm.trans hv)).symm
  rw [hp]
  exact hv2048

/-- Witness for C2 at a concrete valid invocation. -/
theorem create_dry_run_live_same_payload_inst :
    payloadA = payloadA ∧ (argsA.memory = "2G" → payloadA.memory = 2048) :=
  create_dry_run_live_same_payload argsA true true payloadA payloadA
    (by decide) (by decide)

/-- C3: the `detail` lookup is claimed to use whichever selector was
supplied; the code instead always passes `args.id` to `get_instance`,
ignoring `--name` and `--public-ip` (so a `--name` invocation looks up
`None`). -/
theorem detail_lookup_ignores_name_and_ip :
    detailLookupCall ⟨none, some "host.example.com", none, false, false⟩ =
      DetailCall.getInstance none ∧
    (∀ args : DetailArgs, detailLookupCall args = DetailCall.getInstance args.id) :=
  ⟨rfl, fun _ => rfl⟩

/-- C4: when the whole memory string does not parse and the substring left
after stripping the trailing unit character is not a valid integer, the
normalizer fails with InvalidMemorySpec (the uncaught inner ValueError). -/
theorem create_memory_invalid_spec_error (s : String) (u : Char)
    (h0 : pyInt s = none) (h1 : s.data.getLast? = some u)
    (h2 : pyInt (pySlice0 s (-1)) = none) :
    normalizeMemory s = Except.error CliError.invalidMemorySpec := by
  unfold normalizeMemory
  rw [h0, h1, h2]

/-- Witness for C4 at the spec's own example "abcG". -/
theorem create_memory_invalid_spec_error_inst :
    normalizeMemory "abcG" = Except.error CliError.invalidMemorySpec :=
  create_memory_invalid_spec_error "abcG" 'G' (by decide) (by decide) (by decide)

/-- C5 counterexample: on codes whose group keys extend one another the
os rows do not group by exact key: the row keyed "A" also lists "AB_2",
because membership is a prefix test. -/
theorem os_rows_exact_key_grouping_cex :
    osRows ["A_1", "AB_2"] ≠ osRowsKeySpec ["A_1", "AB_2"] := by decide

/-- C5 (amended): the os category sorts the codes, emits one row per
distinct group key (substring before the first underscore) in sorted key
order, and each row newline-joins, in sorted order, every code of which
the key is a prefix (not only the codes with that exact key); on the
claim's example the two notions agree and the groups are exactly
CENTOS with CENTOS_64 and UBUNTU with UBUNTU_32 and UBUNTU_64. -/
theorem os_rows_prefix_grouping :
    (∀ codes : List String, osRows codes = osRowsStartsSpec codes) ∧
    osRows ["UBUNTU_64", "UBUNTU_32", "CENTOS_64"] =
      [("os (CENTOS)", "CENTOS_64"), ("os (UBUNTU)", "UBUNTU_32\nUBUNTU_64")] :=
  ⟨osRows_eq_startsSpec, by decide⟩

/-- C6: the nic category stringifies every max-speed value, sorts the
strings lexicographically (a permutation of the stringified input,
pairwise ordered by the string order), and comma-joins them; for
speeds 20 and 100 this displays "100,20", not the numeric "20,100". -/
theorem nic_speeds_sorted_as_strings :
    (∀ speeds : List Int, (nicSorted speeds).Perm (speeds.map (fun x => toString x)) ∧
      List.Sorted pyStrLe (nicSorted speeds)) ∧
    nicRow [20, 100] = ("nic", "100,20") ∧
    nicRowNumericSpec [20, 100] = ("nic", "20,100") ∧
    nicRow [20, 100] ≠ nicRowNumericSpec [20, 100] := by
  refine ⟨fun speeds => ⟨List.perm_insertionSort pyStrLe _,
    List.sorted_insertionSort pyStrLe _⟩, by decide, by decide, by decide⟩

/-- C7: the claim says plain `manage poweroff ID` calls `powerOff`; the
code instead raises AttributeError because `exec_shutdown` reads
`args.cycle`, which the poweroff subparser never defines.  All other
action/modifier combinations dispatch as the claim states. -/
theorem manage_poweroff_missing_cycle_attribute :
    manageExecute ManageAction.poweroff false false "1234" =
      Except.error (CliError.attributeError "cycle") ∧
    manageExecute ManageAction.poweroff true false "1234" =
      Except.ok (VgCall.powerOffSoft "1234") ∧
    manageExecute ManageAction.reboot false true "1234" =
      Except.ok (VgCall.rebootHard "1234") ∧
    manageExecute ManageAction.reboot true false "1234" =
      Except.ok (VgCall.rebootSoft "1234") ∧
    manageExecute ManageAction.reboot false false "1234" =
      Except.ok (VgCall.rebootDefault "1234") ∧
    manageExecute ManageAction.poweron false false "1234" =
      Except.ok (VgCall.powerOn "1234") ∧
    manageExecute ManageAction.pause false false "1234" =
      Except.ok (VgCall.pause "1234") ∧
    manageExecute ManageAction.resume false false "1234" =
      Except.ok (VgCall.resume "1234") := by decide

/-- C8: a memory string of digits followed by one trailing letter other
than G, g, T, r parses without error and the digit value is used
unmultiplied as the payload's mebibyte count. -/
theorem create_memory_unknown_letter_suffix (ds : List Char) (c : Char)
    (h0 : ds ≠ []) (h1 : ds.all pyIsDigit = true) (h2 : pyIsLetter c = true)
    (h3 : c ≠ 'G') (h4 : c ≠ 'g') (h5 : c ≠ 'T') (h6 : c ≠ 'r') :
    normalizeMemory ⟨ds ++ [c]⟩ = Except.ok (Int.ofNat (digitsVal ds)) ∧
    (∀ (args : CreateArgs) (p : CreateRequest), args.memory = ⟨ds ++ [c]⟩ →
      buildCreateRequest args = Except.ok p → p.memory = Int.ofNat (digitsVal ds)) := by
  have hmem : normalizeMemory ⟨ds ++ [c]⟩ = Except.ok (Int.ofNat (digitsVal ds)) := by
    have ht : normalizeMemory ⟨ds ++ [c]⟩ =
        Except.ok (if c = 'T' ∨ c = 'r'
          then (if c = 'G' ∨ c = 'g' then Int.ofNat (digitsVal ds) * 1024
            else Int.ofNat (digitsVal ds)) * 1024 * 1024
          else (if c = 'G' ∨ c = 'g' then Int.ofNat (digitsVal ds) * 1024
            else Int.ofNat (digitsVal ds))) :=
      @normalizeMemory_append_unit ⟨ds⟩ (Int.ofNat (digitsVal ds)) c
        (pyInt_digits h0 h1) (pyIsLetter_not_digit h2) (pyIsLetter_not_space h2)
    rw [ht, if_neg (not_or.mpr ⟨h5, h6⟩), if_neg (not_or.mpr ⟨h3, h4⟩)]
  refine ⟨hmem, ?_⟩
  intro args p hm hb
  obtain ⟨v, hv, hp⟩ := buildCreateRequest_ok hb
  rw [hm, hmem] at hv
  have hveq : v = Int.ofNat (digitsVal ds) := (Except.ok.inj hv).symm
  rw [hp]
  exact hveq

/-- Witness for C8 at "4X". -/
theorem create_memory_unknown_letter_suffix_inst :
    normalizeMemory ⟨['4'] ++ ['X']⟩ = Except.ok (Int.ofNat (digitsVal ['4'])) ∧
    Int.ofNat (digitsVal ['4']) = 4 :=
  ⟨(create_memory_unknown_letter_suffix ['4'] 'X' (by decide) (by decide) (by decide)
      (by decide) (by decide) (by decide) (by decide)).1, by decide⟩

/-- C9: an OS reference code without an underscore gets, as its group key,
the code with its final character removed: `find` returns -1 and the
slice `o[0:-1]` drops the last character. -/
theorem os_key_no_underscore (s : String) (h : '_' ∉ s.data) :
    osKey s = ⟨s.data.dropLast⟩ := by
  have hnone : List.findIdx? (fun x => x = '_') s.data = none := by
    rw [List.findIdx?_eq_none_iff]
    intro x hx
    rw [decide_eq_false_iff_not]
    intro heq
    exact h (heq ▸ hx)
  have hfind : pyFind s '_' = -1 := by
    unfold pyFind
    rw [hnone]
  show pySlice0 s (pyFind s '_') = _
  rw [hfind]
  exact pySlice0_neg_one s

/-- Witness for C9 at "CENTOS". -/
theorem os_key_no_underscore_inst : osKey "CENTOS" = "CENTO" :=
  (os_key_no_underscore "CENTOS" (by decide)).trans (by decide)

/-- C10: every payload `buildCreateRequest` produces carries
`local_disk = True`; no argument influences the field. -/
theorem create_request_local_disk_always_true (args : CreateArgs) (p : CreateRequest)
    (h : buildCreateRequest args = Except.ok p) : p.local_disk = true := by
  obtain ⟨v, _, hp⟩ := buildCreateRequest_ok h
  rw [hp]

/-- Witness for C10 at a concrete invocation. -/
theorem create_request_local_disk_always_true_inst :
    buildCreateRequest argsA = Except.ok payloadA ∧ payloadA.local_disk = true :=
  ⟨by decide, create_request_local_disk_always_true argsA payloadA (by decide)⟩
